import Mathlib

/-!
Verification of the patient progress-notes generator (`app.py`).

The program is embedded shallowly:

* A docx table cell is modelled by the list of its paragraphs' texts
  (`Cell`), a table row by its list of cells (`Row`), a table by its rows.
* An uploaded file either fails to parse (`UploadedDocx.malformed`,
  the case where `Document(...)` raises) or yields its list of tables.
* Python string primitives used by the code (`str.strip`, `str.lower`,
  the `in` substring test, `html.escape`, `str.replace`) are modelled by
  executable functions on `List Char` / `String`.
* The generated docx document is modelled as the list of paragraphs and
  page breaks the code emits (`DocItem`); a paragraph carries the texts
  of its runs.  python-docx renders an embedded `"\n"` in a run as a
  hard line break, so the visual lines of a paragraph are the
  newline-split of its concatenated run text (`parVisualLines`).
* The preview is the HTML string built by `format_preview_html`.
-/

namespace ProgressNotes

/-! ## Python string primitives -/

/-- Whitespace trimming on a character list: drop leading and trailing
whitespace, as Python's `str.strip()` does. -/
def trimChars (cs : List Char) : List Char :=
  ((cs.dropWhile Char.isWhitespace).reverse.dropWhile Char.isWhitespace).reverse

/-- Model of Python `s.strip()`. -/
def pyStrip (s : String) : String :=
  String.mk (trimChars s.toList)

/-- Model of Python `s.lower()` (ASCII case folding). -/
def pyLower (s : String) : String :=
  String.mk (s.toList.map Char.toLower)

/-- `containsSub needle hay = true` iff `needle` occurs as a contiguous
sublist of `hay`: the model of Python's `needle in hay` on strings. -/
def containsSub (needle : List Char) : List Char → Bool
  | [] => needle.isEmpty
  | c :: cs => needle.isPrefixOf (c :: cs) || containsSub needle cs

/-- Model of Python `needle in hay` for strings. -/
def strContains (hay needle : String) : Bool :=
  containsSub needle.toList hay.toList

/-! ## Data model of the uploaded document -/

/-- A table cell: the texts of its paragraphs, in order. -/
abbrev Cell := List String

/-- A table row: its cells, in order (models `row.cells`). -/
abbrev Row := List Cell

/-- A table: its rows, in order (models `table.rows`). -/
abbrev Table := List Row

/-- An uploaded file: either the bytes do not parse as a docx document
(`Document(io.BytesIO(data))` raises), or they parse to a document whose
tables are given in order. -/
inductive UploadedDocx
  | malformed
  | valid (tables : List Table)

/-- One extracted patient record (the dict built in `parse_docx`). -/
structure PatientRecord where
  patient_info : String
  issues : String
  labs : String
  plan : String
deriving DecidableEq

/-! ## The extractor (`get_text_from_cell`, `parse_docx`) -/

/-- `get_text_from_cell`:
`"\n".join([p.text.strip() for p in cell.paragraphs if p.text.strip()])`. -/
def get_text_from_cell (cell : Cell) : String :=
  String.intercalate "\n" ((cell.map pyStrip).filter (fun t => t != ""))

/-- Text of cell `i` of a row, `get_text_from_cell(row.cells[i])`
(the code only reads indices `0..3` after checking the row has at
least 4 cells, so the default never matters). -/
def cellTextAt (row : Row) (i : Nat) : String :=
  get_text_from_cell (row.getD i [])

/-- The fixed keyword list of the header heuristic (line 83 of the code). -/
def headerKeywords : List String :=
  ["patient", "name", "id", "issue", "issues", "lab", "plan", "on review"]

/-- The header test applied to a row: build
`f"{pinfo} {issues} {labs} {plan}".lower()` from the first four cell
texts and ask whether any keyword occurs in it as a substring. -/
def headerHitRow (row : Row) : Bool :=
  headerKeywords.any (fun k =>
    strContains
      (pyLower (cellTextAt row 0 ++ " " ++ cellTextAt row 1 ++ " " ++
        cellTextAt row 2 ++ " " ++ cellTextAt row 3)) k)

/-- The record appended for a qualifying row (fields stripped,
assigned positionally from cells 0..3). -/
def recordOfRow (row : Row) : PatientRecord :=
  { patient_info := pyStrip (cellTextAt row 0)
    issues := pyStrip (cellTextAt row 1)
    labs := pyStrip (cellTextAt row 2)
    plan := pyStrip (cellTextAt row 3) }

/-- The `for row_idx, row in enumerate(table.rows)` loop of `parse_docx`:
skip rows with fewer than 4 cells, apply the header heuristic only at
`row_idx == 0`, keep rows whose stripped first-cell text is non-empty. -/
def rowsLoop : Nat → List Row → List PatientRecord
  | _, [] => []
  | row_idx, row :: rest =>
    if row.length < 4 then rowsLoop (row_idx + 1) rest
    else if row_idx == 0 && headerHitRow row then rowsLoop (row_idx + 1) rest
    else if pyStrip (cellTextAt row 0) != "" then
      recordOfRow row :: rowsLoop (row_idx + 1) rest
    else rowsLoop (row_idx + 1) rest

/-- `parse_docx`: on a parse failure return `[]` (after reporting), on a
document with no tables return `[]`, otherwise run the row loop over the
first table only. -/
def parse_docx : UploadedDocx → List PatientRecord
  | .malformed => []
  | .valid [] => []
  | .valid (table :: _) => rowsLoop 0 table

/-! ## User-facing messages around the extractor (UI boundary) -/

/-- The user-facing banners relevant to extraction: the in-`parse_docx`
parse-failure message (line 63), the caller's empty-result message
(line 234) and its success banner (line 236). -/
inductive UiMsg
  | couldNotParse
  | noValidRows
  | found (n : Nat)
deriving DecidableEq

/-- Messages emitted inside `parse_docx` itself: only the
"Could not parse the .docx file" error, on the malformed branch. -/
def parse_docx_msgs : UploadedDocx → List UiMsg
  | .malformed => [UiMsg.couldNotParse]
  | .valid _ => []

/-- The caller (`if not patients: st.error(...) else st.success(...)`),
appended after whatever `parse_docx` reported. -/
def ui_messages (f : UploadedDocx) : List UiMsg :=
  parse_docx_msgs f ++
    (if (parse_docx f).isEmpty then [UiMsg.noValidRows]
     else [UiMsg.found (parse_docx f).length])

/-! ## The generated document (`create_progress_notes`) -/

/-- One body item of the generated docx: a paragraph (carrying the texts
of its runs, in order) or a hard page break.  Run formatting (bold,
italic, size, alignment) and the section margins are set by the code but
carry no text content, so they are not modelled. -/
inductive DocItem
  | par (runs : List String)
  | pageBreak
deriving DecidableEq

/-- `doc.add_paragraph(text)`: adds a run only when `text` is non-empty
(python-docx adds no run for an empty string). -/
def add_paragraph_text (t : String) : DocItem :=
  DocItem.par (if t = "" then [] else [t])

/-- The fixed per-record template emitted by the body of the `for` loop
in `create_progress_notes`, in source order: patient line, two blank
paragraphs, team line, one blank, the "Ward Round Notes"/date line, the
Issues, On review, On examination and Plan sections with their spacing
slots. -/
def recordBlock (team_info today : String) (p : PatientRecord) : List DocItem :=
  [DocItem.par [p.patient_info],
   DocItem.par [], DocItem.par [],
   DocItem.par [if team_info = "" then "" else team_info],
   DocItem.par [],
   DocItem.par ["Ward Round Notes", "  " ++ today],
   DocItem.par ["Issues"],
   add_paragraph_text p.issues,
   DocItem.par ["On review"],
   add_paragraph_text p.labs,
   DocItem.par [], DocItem.par [], DocItem.par [], DocItem.par [],
   DocItem.par ["On examination"],
   DocItem.par [], DocItem.par [], DocItem.par [], DocItem.par [],
   DocItem.par ["Plan"],
   add_paragraph_text p.plan]

/-- The `for idx, p in enumerate(patients)` loop of
`create_progress_notes`: emit the template for each record and, when
`idx != len(patients) - 1`, a page break after it.  `n` is the fixed
`len(patients)` of the whole call. -/
def buildLoop (team_info today : String) (n : Nat) : Nat → List PatientRecord → List DocItem
  | _, [] => []
  | idx, p :: rest =>
    recordBlock team_info today p ++
      (if idx != n - 1 then [DocItem.pageBreak] else []) ++
      buildLoop team_info today n (idx + 1) rest

/-- `create_progress_notes(patients, team_info)`, with the single
`datetime.now().strftime("%d %B %Y")` read made an explicit `today`
parameter. -/
def create_progress_notes (patients : List PatientRecord) (team_info today : String) :
    List DocItem :=
  buildLoop team_info today patients.length 0 patients

/-! ## The preview (`_html_escape_and_br`, `format_preview_html`) -/

/-- The character translation of Python `html.escape` (quote mode, the
default): `&`, `<`, `>`, `"` and the apostrophe become entities, every
other character is kept.  `html.escape` performs these as sequential
whole-string replacements starting with `&`, which is exactly this
character-wise map. -/
def escapeChars (c : Char) : List Char :=
  if c = '&' then "&amp;".toList
  else if c = '<' then "&lt;".toList
  else if c = '>' then "&gt;".toList
  else if c = '"' then "&quot;".toList
  else if c = Char.ofNat 39 then "&#x27;".toList
  else [c]

/-- Model of Python `html.escape(s)`. -/
def htmlEscape (s : String) : String :=
  String.mk (s.toList.flatMap escapeChars)

/-- One step of `.replace("\n", "<br>")`: the pattern is the single
newline character, so the replacement is character-wise. -/
def brPiece (c : Char) : List Char :=
  if c = '\n' then "<br>".toList else [c]

/-- `_html_escape_and_br`: `""` for a falsy (empty) string, otherwise
`html.escape(s).replace("\n", "<br>")`. -/
def _html_escape_and_br (s : String) : String :=
  if s = "" then ""
  else String.mk ((htmlEscape s).toList.flatMap brPiece)

/-- Literal template pieces of the f-string in `format_preview_html`,
between the interpolated values, in order. -/
def previewTpl1 : String :=
  "\n<div style=\"text-align:right; font-size:16px; font-weight:bold;\">\n"

def previewTpl2 : String :=
  "\n</div>\n<br><br>\n<div style=\"font-size:14px; font-style:italic; font-weight:bold; color:#444;\">\n"

def previewTpl3 : String :=
  "\n</div>\n<br>\n<div style=\"font-size:16px; font-weight:bold;\">\nWard Round Notes <span style=\"font-size:14px; font-style:italic; font-weight:normal;\">"

def previewTpl4 : String :=
  "</span>\n</div>\n<div style=\"font-weight:bold;\">Issues</div>\n<div>"

def previewTpl5 : String :=
  "</div>\n<div style=\"font-weight:bold;\">On review</div>\n<div>"

def previewTpl6 : String :=
  "</div>\n<br><br><br><br>\n<div style=\"font-weight:bold;\">On examination</div>\n<br><br><br><br>\n<div style=\"font-weight:bold;\">Plan</div>\n<div>"

def previewTpl7 : String :=
  "</div>\n"

/-- `format_preview_html(p, team_info)`: the f-string with every record
field and the team label passed through `_html_escape_and_br` and the
date inserted verbatim; `today` is the explicit date parameter. -/
def format_preview_html (p : PatientRecord) (team_info today : String) : String :=
  previewTpl1 ++ _html_escape_and_br p.patient_info ++
  previewTpl2 ++ _html_escape_and_br (if team_info = "" then "" else team_info) ++
  previewTpl3 ++ today ++
  previewTpl4 ++ _html_escape_and_br p.issues ++
  previewTpl5 ++ _html_escape_and_br p.labs ++
  previewTpl6 ++ _html_escape_and_br p.plan ++
  previewTpl7

/-! ## The sample generator (`create_sample_docx_bytes`) -/

/-- The document built by `create_sample_docx_bytes`: a single table
whose header row carries the four column labels and whose three data
rows are the illustrative patients.  `cell.text = s` leaves the cell
with a single paragraph whose text is `s` (python-docx turns the
embedded `"\n"` into a line break on writing and reads it back as
`"\n"`). -/
def create_sample_docx : UploadedDocx :=
  UploadedDocx.valid
    [[ [["Patient details"], ["Issues"], ["On review"], ["Plan"]],
       [["Mr John Smith, ID 1001, Ward 3B"], ["Fever\nDyspnoea"],
        ["WCC 14.2\nCRP 45"], ["Start IV antibiotics\nCXR"]],
       [["Ms Alice Brown, ID 1002, Ward 4A"], ["Abdominal pain"],
        ["WCC 9.8\nLFTs normal"], ["CT abdomen\nNPO"]],
       [["Mr Bob Lee, ID 1003, Ward 2C"], ["Post-op Day 2\nPain controlled"],
        ["Hb 110"], ["Analgesia PRN\nPhysio"]] ]]

/-! ## Spec-side definitions

Definitions in this section follow the wording of the specification (or
give rendering semantics the spec talks about, such as "visual lines");
the theorems below compare the source-derived functions against them. -/

/-- Split a character list at newline characters (Python
`s.split("\n")` semantics: always at least one piece, a trailing
newline yields a trailing empty piece). -/
def splitNl : List Char → List (List Char)
  | [] => [[]]
  | c :: cs =>
    if c = '\n' then [] :: splitNl cs
    else
      match splitNl cs with
      | [] => [[c]]
      | l :: ls => (c :: l) :: ls

/-- Join character-list pieces with a separator. -/
def joinSepChars (sep : List Char) : List (List Char) → List Char
  | [] => []
  | [l] => l
  | l :: ls => l ++ sep ++ joinSepChars sep ls

/-- The lines of a string: its newline-split. -/
def strLines (s : String) : List String :=
  (splitNl s.toList).map String.mk

/-- Join strings with a single newline between consecutive pieces (the
spec's "joined by a single newline character"). -/
def joinNl : List String → String
  | [] => ""
  | [l] => l
  | l :: ls => l ++ "\n" ++ joinNl ls

/-- Join strings with a single `"<br>"` between consecutive pieces (the
spec's newline-to-line-break conversion, one break per newline). -/
def joinBr : List String → String
  | [] => ""
  | [l] => l
  | l :: ls => l ++ "<br>" ++ joinBr ls

/-- The visual lines a docx paragraph presents: python-docx writes an
embedded `"\n"` of a run as a hard line break `<w:br/>`, so the visual
lines are the newline-split of the concatenated run text.  A page break
shows no text. -/
def parVisualLines : DocItem → List String
  | DocItem.par runs => strLines (String.join runs)
  | DocItem.pageBreak => []

/-- Qualification of a row at its index, per the spec: at least 4
cells, not an index-0 row recognized as a header, and a first-cell text
that is non-empty after trimming. -/
def rowQualifiesAt (i : Nat) (row : Row) : Bool :=
  !decide (row.length < 4) && !(i == 0 && headerHitRow row) &&
    (pyStrip (cellTextAt row 0) != "")

/-- Qualification of a row independent of position (what applies to
every row after the first): at least 4 cells and a non-empty stripped
first-cell text.  The header heuristic plays no part. -/
def rowQualifiesLater (row : Row) : Bool :=
  !decide (row.length < 4) && (pyStrip (cellTextAt row 0) != "")

/-- Spec-side extraction over the first table: keep exactly the
qualifying rows, in order, and read each record positionally. -/
def specExtract (t : Table) : List PatientRecord :=
  ((t.enum).filter (fun ir => rowQualifiesAt ir.1 ir.2)).map
    (fun ir => recordOfRow ir.2)

/-- Spec-side sequencing of the document output: the blocks in record
order with one page break between consecutive blocks and none at the
end. -/
def specSepBlocks (block : PatientRecord → List DocItem) : List PatientRecord → List DocItem
  | [] => []
  | [p] => block p
  | p :: ps => block p ++ DocItem.pageBreak :: specSepBlocks block ps

/-- Page-break detector on document items. -/
def isPageBreak : DocItem → Bool
  | DocItem.pageBreak => true
  | DocItem.par _ => false

/-- Number of hard page breaks in a document body. -/
def countPageBreaks (items : List DocItem) : Nat :=
  items.countP isPageBreak

/-! ## Characterization of the extractor loop -/

lemma rowsLoop_succ (rest : List Row) (k : Nat) :
    rowsLoop (k + 1) rest = (rest.filter rowQualifiesLater).map recordOfRow := by
  induction rest generalizing k with
  | nil => simp [rowsLoop]
  | cons row rest ih =>
    simp only [rowsLoop]
    by_cases h4 : row.length < 4
    · simp [h4, rowQualifiesLater, List.filter_cons, ih]
    · by_cases h0 : pyStrip (cellTextAt row 0) != ""
      · simp [h4, h0, rowQualifiesLater, List.filter_cons, ih]
      · simp [h4, h0, rowQualifiesLater, List.filter_cons, ih]

lemma parse_docx_cons (row : Row) (rest : List Row) (ts : List Table) :
    parse_docx (UploadedDocx.valid ((row :: rest) :: ts)) =
      (if row.length < 4 then []
       else if headerHitRow row then []
       else if pyStrip (cellTextAt row 0) != "" then [recordOfRow row]
       else []) ++
      (rest.filter rowQualifiesLater).map recordOfRow := by
  simp only [parse_docx, rowsLoop]
  by_cases h4 : row.length < 4
  · simp [h4, rowsLoop_succ]
  · by_cases hh : headerHitRow row
    · simp [h4, hh, rowsLoop_succ]
    · by_cases h0 : pyStrip (cellTextAt row 0) != ""
      · simp [h4, hh, h0, rowsLoop_succ]
      · simp [h4, hh, h0, rowsLoop_succ]

lemma rowQualifiesAt_succ (k : Nat) (row : Row) :
    rowQualifiesAt (k + 1) row = rowQualifiesLater row := by
  simp [rowQualifiesAt, rowQualifiesLater]

lemma enumFrom_filter_map (rest : List Row) (k : Nat) :
    (((rest.enumFrom (k + 1)).filter (fun ir => rowQualifiesAt ir.1 ir.2)).map
        (fun ir => recordOfRow ir.2)) =
      (rest.filter rowQualifiesLater).map recordOfRow := by
  induction rest generalizing k with
  | nil => simp
  | cons row rest ih =>
    simp only [List.enumFrom_cons, List.filter_cons, rowQualifiesAt_succ]
    by_cases hq : rowQualifiesLater row
    · simp [hq, ih]
    · simp [hq, ih]

lemma enumFrom_one_filter_map (rest : List Row) :
    (((rest.enumFrom 1).filter (fun ir => rowQualifiesAt ir.1 ir.2)).map
        (fun ir => recordOfRow ir.2)) =
      (rest.filter rowQualifiesLater).map recordOfRow :=
  enumFrom_filter_map rest 0

lemma specExtract_cons (row : Row) (rest : List Row) :
    specExtract (row :: rest) =
      (if rowQualifiesAt 0 row then [recordOfRow row] else []) ++
        (rest.filter rowQualifiesLater).map recordOfRow := by
  simp only [specExtract, List.enum, List.enumFrom_cons, List.filter_cons]
  by_cases hq : rowQualifiesAt 0 row
  · simpa [hq] using enumFrom_one_filter_map rest
  · simpa [hq] using enumFrom_one_filter_map rest

lemma parse_docx_eq_specExtract (t : Table) (ts : List Table) :
    parse_docx (UploadedDocx.valid (t :: ts)) = specExtract t := by
  cases t with
  | nil => simp [parse_docx, rowsLoop, specExtract]
  | cons row rest =>
    rw [parse_docx_cons, specExtract_cons]
    congr 1
    by_cases h4 : row.length < 4
    · simp [rowQualifiesAt, h4]
    · by_cases hh : headerHitRow row
      · simp [rowQualifiesAt, h4, hh]
      · by_cases h0 : pyStrip (cellTextAt row 0) != ""
        · simp [rowQualifiesAt, h4, hh, h0]
        · simp [rowQualifiesAt, h4, hh, h0]

/-! ## Characterization of the document builder -/

lemma specSepBlocks_pair (block : PatientRecord → List DocItem) (p q : PatientRecord)
    (ps : List PatientRecord) :
    specSepBlocks block (p :: q :: ps) =
      block p ++ DocItem.pageBreak :: specSepBlocks block (q :: ps) := rfl

lemma buildLoop_eq_specSepBlocks (ti td : String) (n : Nat) :
    ∀ (rest : List PatientRecord) (idx : Nat), idx + rest.length = n →
      buildLoop ti td n idx rest = specSepBlocks (recordBlock ti td) rest := by
  intro rest
  induction rest with
  | nil => intro idx _; rfl
  | cons p rest ih =>
    intro idx hlen
    cases rest with
    | nil =>
      have hidx : idx = n - 1 := by simp at hlen; omega
      simp [buildLoop, specSepBlocks, hidx]
    | cons q rest' =>
      have hne : idx ≠ n - 1 := by simp at hlen; omega
      have hbne : (idx != n - 1) = true := by simpa using hne
      rw [specSepBlocks_pair]
      rw [show buildLoop ti td n idx (p :: q :: rest') =
            recordBlock ti td p ++
              (if idx != n - 1 then [DocItem.pageBreak] else []) ++
              buildLoop ti td n (idx + 1) (q :: rest') from rfl]
      rw [ih (idx + 1) (by simp at hlen ⊢; omega)]
      simp [hbne]

lemma create_progress_notes_eq (ps : List PatientRecord) (ti td : String) :
    create_progress_notes ps ti td = specSepBlocks (recordBlock ti td) ps :=
  buildLoop_eq_specSepBlocks ti td ps.length ps 0 (by simp)

lemma countPB_recordBlock (ti td : String) (p : PatientRecord) :
    (recordBlock ti td p).countP isPageBreak = 0 := by
  simp [recordBlock, add_paragraph_text, isPageBreak, List.countP_cons]

lemma countPB_specSepBlocks (ti td : String) :
    ∀ (ps : List PatientRecord), ps ≠ [] →
      countPageBreaks (specSepBlocks (recordBlock ti td) ps) = ps.length - 1 := by
  intro ps
  induction ps with
  | nil => intro h; exact absurd rfl h
  | cons p rest ih =>
    intro _
    cases rest with
    | nil =>
      simp [countPageBreaks, specSepBlocks, countPB_recordBlock]
    | cons q rest' =>
      rw [specSepBlocks_pair]
      simp only [countPageBreaks] at ih ⊢
      rw [List.countP_append, List.countP_cons]
      rw [countPB_recordBlock, ih (by simp)]
      simp [isPageBreak]

/-! ## String and line-splitting lemmas -/

lemma joinNl_append_cons (x y : String) (ls : List String) :
    joinNl ((x ++ y) :: ls) = x ++ joinNl (y :: ls) := by
  cases ls with
  | nil => rfl
  | cons a as =>
    show (x ++ y) ++ "\n" ++ joinNl (a :: as) = x ++ (y ++ "\n" ++ joinNl (a :: as))
    simp [String.append_assoc]

lemma intercalate_go_eq_joinNl : ∀ (as : List String) (acc : String),
    String.intercalate.go acc "\n" as = joinNl (acc :: as)
  | [], acc => rfl
  | b :: bs, acc => by
    show String.intercalate.go (acc ++ "\n" ++ b) "\n" bs = joinNl (acc :: b :: bs)
    rw [intercalate_go_eq_joinNl bs (acc ++ "\n" ++ b)]
    rw [joinNl_append_cons (acc ++ "\n") b bs]
    rfl

lemma intercalate_eq_joinNl (ls : List String) :
    String.intercalate "\n" ls = joinNl ls := by
  cases ls with
  | nil => rfl
  | cons a as => exact intercalate_go_eq_joinNl as a

lemma splitNl_ne_nil : ∀ (cs : List Char), splitNl cs ≠ []
  | [] => by simp [splitNl]
  | c :: cs => by
    simp only [splitNl]
    by_cases h : c = '\n'
    · simp [h]
    · simp only [h, if_false]
      cases hsc : splitNl cs with
      | nil => simp
      | cons l ls => simp

lemma splitNl_cons_ne (c : Char) (cs : List Char) (h : ¬ c = '\n') (l : List Char)
    (ls : List (List Char)) (hsc : splitNl cs = l :: ls) :
    splitNl (c :: cs) = (c :: l) :: ls := by
  simp only [splitNl, h, if_false, hsc]

lemma flatMap_brPiece_eq : ∀ (cs : List Char),
    cs.flatMap brPiece = joinSepChars ("<br>".toList) (splitNl cs)
  | [] => rfl
  | c :: cs => by
    have ih := flatMap_brPiece_eq cs
    obtain ⟨l, ls, hsc⟩ := List.exists_cons_of_ne_nil (splitNl_ne_nil cs)
    rw [show (c :: cs).flatMap brPiece = brPiece c ++ cs.flatMap brPiece from rfl]
    by_cases h : c = '\n'
    · subst h
      rw [show splitNl ('\n' :: cs) = [] :: splitNl cs from by simp [splitNl]]
      rw [hsc] at ih ⊢
      rw [show joinSepChars ("<br>".toList) ([] :: l :: ls) =
            [] ++ ("<br>".toList ++ joinSepChars ("<br>".toList) (l :: ls)) from rfl]
      rw [show brPiece '\n' = "<br>".toList from rfl]
      simp [ih]
    · rw [splitNl_cons_ne c cs h l ls hsc]
      rw [show brPiece c = [c] from by simp [brPiece, h]]
      rw [hsc] at ih
      cases ls with
      | nil =>
        rw [show joinSepChars ("<br>".toList) [c :: l] = c :: l from rfl]
        rw [show joinSepChars ("<br>".toList) [l] = l from rfl] at ih
        simp [ih]
      | cons l2 ls' =>
        rw [show joinSepChars ("<br>".toList) ((c :: l) :: l2 :: ls') =
              (c :: l) ++ "<br>".toList ++ joinSepChars ("<br>".toList) (l2 :: ls') from rfl]
        rw [show joinSepChars ("<br>".toList) (l :: l2 :: ls') =
              l ++ "<br>".toList ++ joinSepChars ("<br>".toList) (l2 :: ls') from rfl] at ih
        simp [ih]

lemma escapeChars_nl : escapeChars '\n' = ['\n'] := rfl

lemma escapeChars_no_nl (c : Char) (h : ¬ c = '\n') :
    ∀ a ∈ escapeChars c, ¬ a = '\n' := by
  unfold escapeChars
  split
  · decide
  · split
    · decide
    · split
      · decide
      · split
        · decide
        · split
          · decide
          · intro a ha
            simp at ha
            simpa [ha] using h

lemma escapeChars_no_angle (c : Char) :
    ∀ a ∈ escapeChars c, ¬ a = '<' ∧ ¬ a = '>' := by
  unfold escapeChars
  split
  · decide
  · split
    · decide
    · split
      · decide
      · split
        · decide
        · split
          · decide
          · rename_i h1 h2 h3 h4 h5
            intro a ha
            simp at ha
            subst ha
            exact ⟨h2, h3⟩

lemma splitNl_append_no_nl : ∀ (xs ys : List Char) (l : List Char) (ls : List (List Char)),
    splitNl ys = l :: ls → (∀ a ∈ xs, ¬ a = '\n') →
    splitNl (xs ++ ys) = (xs ++ l) :: ls
  | [], ys, l, ls, hys, _ => by simpa using hys
  | x :: xs, ys, l, ls, hys, hno => by
    have hx : ¬ x = '\n' := hno x (by simp)
    have ih := splitNl_append_no_nl xs ys l ls hys (fun a ha => hno a (by simp [ha]))
    rw [show (x :: xs) ++ ys = x :: (xs ++ ys) from rfl]
    rw [splitNl_cons_ne x (xs ++ ys) hx (xs ++ l) ls ih]
    rfl

lemma splitNl_flatMap_escape : ∀ (cs : List Char),
    splitNl (cs.flatMap escapeChars) = (splitNl cs).map (fun l => l.flatMap escapeChars)
  | [] => rfl
  | c :: cs => by
    have ih := splitNl_flatMap_escape cs
    obtain ⟨l, ls, hsc⟩ := List.exists_cons_of_ne_nil (splitNl_ne_nil cs)
    rw [show (c :: cs).flatMap escapeChars = escapeChars c ++ cs.flatMap escapeChars from rfl]
    by_cases h : c = '\n'
    · subst h
      rw [escapeChars_nl]
      rw [show (['\n'] ++ cs.flatMap escapeChars) = '\n' :: cs.flatMap escapeChars from rfl]
      rw [show splitNl ('\n' :: cs.flatMap escapeChars) = [] :: splitNl (cs.flatMap escapeChars)
            from by simp [splitNl]]
      rw [show splitNl ('\n' :: cs) = [] :: splitNl cs from by simp [splitNl]]
      simp [ih]
    · have hls : splitNl (cs.flatMap escapeChars) =
          (l.flatMap escapeChars) :: ls.map (fun t => t.flatMap escapeChars) := by
        rw [ih, hsc]; rfl
      rw [splitNl_append_no_nl (escapeChars c) (cs.flatMap escapeChars) _ _ hls
            (escapeChars_no_nl c h)]
      rw [splitNl_cons_ne c cs h l ls hsc]
      rw [show ((c :: l) :: ls).map (fun t => t.flatMap escapeChars) =
            ((c :: l).flatMap escapeChars) :: ls.map (fun t => t.flatMap escapeChars) from rfl]
      rw [show (c :: l).flatMap escapeChars = escapeChars c ++ l.flatMap escapeChars from rfl]

/-! ## Lifting to `String` -/

lemma mk_append (a b : List Char) :
    String.mk a ++ String.mk b = String.mk (a ++ b) := rfl

lemma htmlEscape_mk (l : List Char) :
    htmlEscape (String.mk l) = String.mk (l.flatMap escapeChars) := rfl

lemma joinBr_map_mk : ∀ (ls : List (List Char)),
    joinBr (ls.map String.mk) = String.mk (joinSepChars ("<br>".toList) ls)
  | [] => rfl
  | [l] => rfl
  | l :: l2 :: ls => by
    have ih := joinBr_map_mk (l2 :: ls)
    rw [show (l :: l2 :: ls).map String.mk =
          String.mk l :: String.mk l2 :: ls.map String.mk from rfl]
    rw [show joinBr (String.mk l :: String.mk l2 :: ls.map String.mk) =
          String.mk l ++ "<br>" ++ joinBr (String.mk l2 :: ls.map String.mk) from rfl]
    rw [show joinSepChars ("<br>".toList) (l :: l2 :: ls) =
          l ++ "<br>".toList ++ joinSepChars ("<br>".toList) (l2 :: ls) from rfl]
    rw [show ((String.mk l2 :: ls.map String.mk) : List String) =
          ((l2 :: ls).map String.mk) from rfl]
    rw [ih]
    rw [show ("<br>" : String) = String.mk ("<br>".toList) from rfl]
    rw [mk_append, mk_append]
    simp [List.append_assoc]

lemma strLines_mk_map (s : String) :
    (strLines s).map htmlEscape =
      ((splitNl s.toList).map (fun l => l.flatMap escapeChars)).map String.mk := by
  simp only [strLines, List.map_map]
  rfl

/-- Escaping happens before newline-to-`<br>` conversion: the output of
`_html_escape_and_br` is exactly the escaped lines of the input joined
by single `"<br>"` separators. -/
lemma escape_and_br_eq_joinBr (s : String) :
    _html_escape_and_br s = joinBr ((strLines s).map htmlEscape) := by
  by_cases h : s = ""
  · subst h; rfl
  · rw [show _html_escape_and_br s =
          String.mk (((htmlEscape s).toList).flatMap brPiece) from by
        simp [_html_escape_and_br, h]]
    rw [show (htmlEscape s).toList = s.toList.flatMap escapeChars from rfl]
    rw [flatMap_brPiece_eq, splitNl_flatMap_escape]
    rw [strLines_mk_map, joinBr_map_mk]

/-- No unescaped angle bracket survives `html.escape`. -/
lemma htmlEscape_no_angle (s : String) :
    ∀ c ∈ (htmlEscape s).toList, ¬ c = '<' ∧ ¬ c = '>' := by
  intro c hc
  rw [show (htmlEscape s).toList = s.toList.flatMap escapeChars from rfl] at hc
  rw [List.mem_flatMap] at hc
  obtain ⟨a, _, hmem⟩ := hc
  exact escapeChars_no_angle a c hmem

lemma parVisualLines_add_paragraph_text (t : String) :
    parVisualLines (add_paragraph_text t) = strLines t := by
  by_cases h : t = ""
  · subst h; rfl
  · simp only [add_paragraph_text, h, if_false, parVisualLines]
    rw [show String.join [t] = "" ++ t from rfl]
    rw [show ("" ++ t : String) = t from rfl]

/-! ## Claim theorems -/

/-- C1: on any parsed document whose first table is `t`, the extractor
returns exactly one record per qualifying row of `t` (at least 4 cells,
not a header-recognized first row, non-empty stripped first-cell text),
in table row order, fields assigned positionally from cells 0..3; and a
record read from a row never depends on cells beyond index 3. -/
theorem C1_extraction_positional (t : Table) (ts : List Table) :
    parse_docx (UploadedDocx.valid (t :: ts)) = specExtract t ∧
    (∀ (row : Row) (extra : List Cell), 4 ≤ row.length →
      recordOfRow (row ++ extra) = recordOfRow row) := by
  refine ⟨parse_docx_eq_specExtract t ts, ?_⟩
  intro row extra h4
  have hget : ∀ i, i < row.length → (row ++ extra).getD i [] = row.getD i [] := by
    intro i hi
    rw [List.getD_eq_getElem?_getD, List.getD_eq_getElem?_getD,
      List.getElem?_append, if_pos hi]
  simp only [recordOfRow, cellTextAt]
  rw [hget 0 (by omega), hget 1 (by omega), hget 2 (by omega), hget 3 (by omega)]

theorem C1_extraction_positional_witness :
    parse_docx (UploadedDocx.valid [[[["Alpha"], ["B"], ["C"], ["D"]]]]) =
      specExtract [[["Alpha"], ["B"], ["C"], ["D"]]] ∧
    recordOfRow ([["Alpha"], ["B"], ["C"], ["D"]] ++ [["E"]]) =
      recordOfRow [["Alpha"], ["B"], ["C"], ["D"]] :=
  ⟨(C1_extraction_positional [[["Alpha"], ["B"], ["C"], ["D"]]] []).1,
   (C1_extraction_positional [[["Alpha"], ["B"], ["C"], ["D"]]] []).2
     [["Alpha"], ["B"], ["C"], ["D"]] [["E"]] (by decide)⟩

/-- C2: a first row with at least 4 cells is skipped as a header exactly
when its space-joined, lower-cased cell text contains one of the fixed
keywords; every later row with at least 4 cells and a non-empty stripped
first cell contributes its record whatever keywords it contains. -/
theorem C2_header_first_row_only (row : Row) (rest : List Row) (ts : List Table)
    (h4 : ¬ row.length < 4) :
    parse_docx (UploadedDocx.valid ((row :: rest) :: ts)) =
      (if headerHitRow row then []
       else if pyStrip (cellTextAt row 0) != "" then [recordOfRow row] else []) ++
        (rest.filter rowQualifiesLater).map recordOfRow ∧
    headerHitRow row =
      headerKeywords.any (fun k =>
        strContains
          (pyLower (cellTextAt row 0 ++ " " ++ cellTextAt row 1 ++ " " ++
            cellTextAt row 2 ++ " " ++ cellTextAt row 3)) k) ∧
    (∀ r : Row, r ∈ rest → ¬ r.length < 4 → pyStrip (cellTextAt r 0) ≠ "" →
      recordOfRow r ∈ parse_docx (UploadedDocx.valid ((row :: rest) :: ts))) := by
  refine ⟨?_, rfl, ?_⟩
  · rw [parse_docx_cons]
    simp [h4]
  · intro r hr hr4 hr0
    rw [parse_docx_cons]
    refine List.mem_append_right _ ?_
    refine List.mem_map.mpr ⟨r, List.mem_filter.mpr ⟨hr, ?_⟩, rfl⟩
    simp [rowQualifiesLater, hr4, hr0]

theorem C2_header_first_row_only_witness :
    parse_docx (UploadedDocx.valid
        [[[["Patient details"], ["Issues"], ["On review"], ["Plan"]],
          [["Mr X, Bed 9"], ["Sore arm, plan pending"], ["CRP 5"], ["Rest"]]]]) =
      (if headerHitRow [["Patient details"], ["Issues"], ["On review"], ["Plan"]] then []
       else if pyStrip (cellTextAt [["Patient details"], ["Issues"], ["On review"], ["Plan"]] 0) != ""
         then [recordOfRow [["Patient details"], ["Issues"], ["On review"], ["Plan"]]] else []) ++
        ([[["Mr X, Bed 9"], ["Sore arm, plan pending"], ["CRP 5"], ["Rest"]]].filter
          rowQualifiesLater).map recordOfRow ∧
    recordOfRow [["Mr X, Bed 9"], ["Sore arm, plan pending"], ["CRP 5"], ["Rest"]] ∈
      parse_docx (UploadedDocx.valid
        [[[["Patient details"], ["Issues"], ["On review"], ["Plan"]],
          [["Mr X, Bed 9"], ["Sore arm, plan pending"], ["CRP 5"], ["Rest"]]]]) :=
  ⟨(C2_header_first_row_only
      [["Patient details"], ["Issues"], ["On review"], ["Plan"]]
      [[["Mr X, Bed 9"], ["Sore arm, plan pending"], ["CRP 5"], ["Rest"]]] []
      (by decide)).1,
   (C2_header_first_row_only
      [["Patient details"], ["Issues"], ["On review"], ["Plan"]]
      [[["Mr X, Bed 9"], ["Sore arm, plan pending"], ["CRP 5"], ["Rest"]]] []
      (by decide)).2.2
      [["Mr X, Bed 9"], ["Sore arm, plan pending"], ["CRP 5"], ["Rest"]]
      (by decide) (by decide) (by decide)⟩

/-- C3: a cell's text is its stripped, non-empty paragraph texts joined
by single newlines in paragraph order; no kept line is empty, and a
paragraph that strips to nothing contributes neither a line nor
whitespace. -/
theorem C3_cell_text (cell : Cell) :
    get_text_from_cell cell = joinNl ((cell.map pyStrip).filter (fun t => t != "")) ∧
    (∀ t ∈ (cell.map pyStrip).filter (fun t => t != ""), t ≠ "") ∧
    (∀ (pre post : List String) (p : String), pyStrip p = "" →
      get_text_from_cell (pre ++ p :: post) = get_text_from_cell (pre ++ post)) := by
  refine ⟨intercalate_eq_joinNl _, ?_, ?_⟩
  · intro t ht
    have := (List.mem_filter.mp ht).2
    simpa using this
  · intro pre post p hp
    simp [get_text_from_cell, hp]

theorem C3_cell_text_witness :
    get_text_from_cell [" a ", "  ", "b"] =
      joinNl (([" a ", "  ", "b"].map pyStrip).filter (fun t => t != "")) ∧
    get_text_from_cell (["x"] ++ "  " :: ["y"]) = get_text_from_cell (["x"] ++ ["y"]) :=
  ⟨(C3_cell_text [" a ", "  ", "b"]).1,
   (C3_cell_text []).2.2 ["x"] ["y"] "  " (by decide)⟩

/-- C4: for a non-empty record list the generated document is the
per-record blocks in order with one page break between consecutive
blocks and none after the last, so it holds exactly `n - 1` page
breaks. -/
theorem C4_page_breaks (ps : List PatientRecord) (ti td : String) (h : ps ≠ []) :
    countPageBreaks (create_progress_notes ps ti td) = ps.length - 1 ∧
    create_progress_notes ps ti td = specSepBlocks (recordBlock ti td) ps := by
  refine ⟨?_, create_progress_notes_eq ps ti td⟩
  rw [create_progress_notes_eq]
  exact countPB_specSepBlocks ti td ps h

theorem C4_page_breaks_witness :
    countPageBreaks (create_progress_notes
        [⟨"A", "i", "l", "p"⟩, ⟨"B", "i2", "l2", "p2"⟩] "Team A" "01 January 2026") = 1 ∧
    create_progress_notes
        [⟨"A", "i", "l", "p"⟩, ⟨"B", "i2", "l2", "p2"⟩] "Team A" "01 January 2026" =
      specSepBlocks (recordBlock "Team A" "01 January 2026")
        [⟨"A", "i", "l", "p"⟩, ⟨"B", "i2", "l2", "p2"⟩] :=
  C4_page_breaks [⟨"A", "i", "l", "p"⟩, ⟨"B", "i2", "l2", "p2"⟩]
    "Team A" "01 January 2026" (by decide)

/-- C5: the issues, labs and plan bodies appear verbatim as single
paragraphs of the generated document (positions 7, 9 and 20 of a
one-record document), their visual lines are exactly the newline-split
of the field, and the preview presents the same lines joined by single
`<br>` separators; in particular "Fever\nDyspnoea" yields the two lines
"Fever" and "Dyspnoea" with nothing between them. -/
theorem C5_newline_roundtrip (r : PatientRecord) (ti td : String) :
    (create_progress_notes [r] ti td)[7]? = some (add_paragraph_text r.issues) ∧
    (create_progress_notes [r] ti td)[9]? = some (add_paragraph_text r.labs) ∧
    (create_progress_notes [r] ti td)[20]? = some (add_paragraph_text r.plan) ∧
    parVisualLines (add_paragraph_text r.issues) = strLines r.issues ∧
    parVisualLines (add_paragraph_text r.labs) = strLines r.labs ∧
    parVisualLines (add_paragraph_text r.plan) = strLines r.plan ∧
    _html_escape_and_br r.issues = joinBr ((strLines r.issues).map htmlEscape) ∧
    _html_escape_and_br r.labs = joinBr ((strLines r.labs).map htmlEscape) ∧
    _html_escape_and_br r.plan = joinBr ((strLines r.plan).map htmlEscape) ∧
    strLines "Fever\nDyspnoea" = ["Fever", "Dyspnoea"] ∧
    _html_escape_and_br "Fever\nDyspnoea" = "Fever<br>Dyspnoea" :=
  ⟨rfl, rfl, rfl,
   parVisualLines_add_paragraph_text r.issues,
   parVisualLines_add_paragraph_text r.labs,
   parVisualLines_add_paragraph_text r.plan,
   escape_and_br_eq_joinBr r.issues,
   escape_and_br_eq_joinBr r.labs,
   escape_and_br_eq_joinBr r.plan,
   by decide, by decide⟩

theorem C5_newline_roundtrip_witness :
    parVisualLines (add_paragraph_text "Fever\nDyspnoea") = strLines "Fever\nDyspnoea" :=
  (C5_newline_roundtrip ⟨"Mr A", "Fever\nDyspnoea", "", ""⟩ "T" "D").2.2.2.1

/-- C6: the preview pipes every record field and the team label through
`_html_escape_and_br`, whose output is the per-line escape of the input
joined by `<br>`; no unescaped angle bracket survives escaping, so
`<script>` and `&` render as literal text and a literal `<br>` in a
field is itself escaped rather than becoming a line break. -/
theorem C6_preview_escaping (p : PatientRecord) (ti td : String) :
    (format_preview_html p ti td =
      previewTpl1 ++ _html_escape_and_br p.patient_info ++
      previewTpl2 ++ _html_escape_and_br (if ti = "" then "" else ti) ++
      (previewTpl3 ++ td ++ previewTpl4) ++ _html_escape_and_br p.issues ++
      previewTpl5 ++ _html_escape_and_br p.labs ++
      previewTpl6 ++ _html_escape_and_br p.plan ++ previewTpl7) ∧
    (∀ s : String, ∀ c ∈ (htmlEscape s).toList, ¬ c = '<' ∧ ¬ c = '>') ∧
    (∀ s : String, _html_escape_and_br s = joinBr ((strLines s).map htmlEscape)) ∧
    _html_escape_and_br "<script>" = "&lt;script&gt;" ∧
    _html_escape_and_br "&" = "&amp;" ∧
    _html_escape_and_br "A<br>B" = "A&lt;br&gt;B" := by
  refine ⟨?_, htmlEscape_no_angle, escape_and_br_eq_joinBr, by decide, by decide, by decide⟩
  simp [format_preview_html, String.append_assoc]

theorem C6_preview_escaping_witness :
    (¬ '&' = '<' ∧ ¬ '&' = '>') ∧
    _html_escape_and_br "<script>" = "&lt;script&gt;" :=
  ⟨(C6_preview_escaping ⟨"a", "b", "c", "d"⟩ "T" "D").2.1 "<x" '&' (by decide),
   (C6_preview_escaping ⟨"a", "b", "c", "d"⟩ "T" "D").2.2.2.1⟩

/-- C7: unparseable bytes produce no records and the dedicated
"Could not parse" banner (a message, not a crash), which is distinct
from the empty-result banner; a document that parses to zero qualifying
records produces only the empty-result banner. -/
theorem C7_malformed_vs_empty :
    parse_docx UploadedDocx.malformed = [] ∧
    ui_messages UploadedDocx.malformed = [UiMsg.couldNotParse, UiMsg.noValidRows] ∧
    UiMsg.couldNotParse ∈ ui_messages UploadedDocx.malformed ∧
    ¬ UiMsg.couldNotParse = UiMsg.noValidRows ∧
    (∀ ts : List Table, parse_docx (UploadedDocx.valid ts) = [] →
      ui_messages (UploadedDocx.valid ts) = [UiMsg.noValidRows]) := by
  refine ⟨rfl, rfl, by decide, by decide, ?_⟩
  intro ts h
  simp [ui_messages, parse_docx_msgs, h]

theorem C7_malformed_vs_empty_witness :
    ui_messages (UploadedDocx.valid []) = [UiMsg.noValidRows] :=
  C7_malformed_vs_empty.2.2.2.2 [] rfl

/-- C8: the document renderer is a pure function of the record list,
the team label and the observed date, so two renders that observe the
same date produce identical output. -/
theorem C8_render_deterministic (ps : List PatientRecord) (ti d1 d2 : String)
    (h : d1 = d2) :
    create_progress_notes ps ti d1 = create_progress_notes ps ti d2 := by
  rw [h]

theorem C8_render_deterministic_witness :
    create_progress_notes [⟨"A", "i", "l", "p"⟩] "Team" "02 March 2026" =
      create_progress_notes [⟨"A", "i", "l", "p"⟩] "Team" "02 March 2026" :=
  C8_render_deterministic [⟨"A", "i", "l", "p"⟩] "Team" "02 March 2026"
    "02 March 2026" rfl

/-- C9: a headerless table whose first data row is valid (4 cells,
non-empty first cell) but mentions "ID 1001" in its patient cell is
header-detected through the substring "id", so its patient is silently
missing from the extracted records. -/
theorem C9_keyword_swallows_first_row :
    ¬ ([["Mr John Smith, ID 1001, Ward 3B"], ["Fever"], ["WCC 14.2"],
        ["Start IV antibiotics"]] : Row).length < 4 ∧
    pyStrip (cellTextAt [["Mr John Smith, ID 1001, Ward 3B"], ["Fever"], ["WCC 14.2"],
        ["Start IV antibiotics"]] 0) ≠ "" ∧
    strContains (pyLower "Mr John Smith, ID 1001, Ward 3B") "id" = true ∧
    headerHitRow [["Mr John Smith, ID 1001, Ward 3B"], ["Fever"], ["WCC 14.2"],
        ["Start IV antibiotics"]] = true ∧
    parse_docx (UploadedDocx.valid
        [[[["Mr John Smith, ID 1001, Ward 3B"], ["Fever"], ["WCC 14.2"],
           ["Start IV antibiotics"]],
          [["Ms Alice Brown, Bed 12"], ["Abdominal pain"], ["WCC 9.8"],
           ["CT abdomen"]]]]) =
      [recordOfRow [["Ms Alice Brown, Bed 12"], ["Abdominal pain"], ["WCC 9.8"],
        ["CT abdomen"]]] ∧
    recordOfRow [["Mr John Smith, ID 1001, Ward 3B"], ["Fever"], ["WCC 14.2"],
        ["Start IV antibiotics"]] ∉
      parse_docx (UploadedDocx.valid
        [[[["Mr John Smith, ID 1001, Ward 3B"], ["Fever"], ["WCC 14.2"],
           ["Start IV antibiotics"]],
          [["Ms Alice Brown, Bed 12"], ["Abdominal pain"], ["WCC 9.8"],
           ["CT abdomen"]]]]) := by
  refine ⟨by decide, by decide, by decide, by decide, by decide, by decide⟩

/-- C10: parsing the sample document yields exactly the three
illustrative records (the header row is keyword-skipped), with every
embedded newline of a sample cell preserved as a line separator in the
extracted field. -/
theorem C10_sample_roundtrip :
    parse_docx create_sample_docx =
      [⟨"Mr John Smith, ID 1001, Ward 3B", "Fever\nDyspnoea",
        "WCC 14.2\nCRP 45", "Start IV antibiotics\nCXR"⟩,
       ⟨"Ms Alice Brown, ID 1002, Ward 4A", "Abdominal pain",
        "WCC 9.8\nLFTs normal", "CT abdomen\nNPO"⟩,
       ⟨"Mr Bob Lee, ID 1003, Ward 2C", "Post-op Day 2\nPain controlled",
        "Hb 110", "Analgesia PRN\nPhysio"⟩] ∧
    headerHitRow [["Patient details"], ["Issues"], ["On review"], ["Plan"]] = true ∧
    (parse_docx create_sample_docx).map (fun p => strLines p.issues) =
      [["Fever", "Dyspnoea"], ["Abdominal pain"], ["Post-op Day 2", "Pain controlled"]] := by
  refine ⟨by decide, by decide, by decide⟩

end ProgressNotes

